import Mathlib

/-!
Verification of the moltbook-api admission-control and interaction-consistency
core: a shallow embedding of the sliding-window rate limiter
(`src/middleware/rateLimit.js`), the vote ledger (`VoteService`), and the
comment-tree assembler (`CommentService`), together with theorems settling the
specification's claims about them.
-/

set_option maxHeartbeats 1000000

/-! ## Sliding-window rate limiter (src/src/middleware/rateLimit.js) -/

/-- Configuration of one rate limit: at most `max` events per `window` seconds
(the source's `config.rateLimits[limitType]`, a `{ max, window }` object). -/
structure RateLimitCfg where
  max : Nat
  window : Nat
deriving Repr, DecidableEq

/-- The record returned by `checkLimit` (rateLimit.js:76-82).  Timestamps are
milliseconds since the epoch, as produced by `Date.now()`. -/
structure Decision where
  allowed : Bool
  remaining : Nat
  limit : Nat
  resetAt : Int
  retryAfter : Int
deriving Repr, DecidableEq

instance : Inhabited Decision := ⟨⟨false, 0, 0, 0, 0⟩⟩

/-- Embedding of `checkLimit(key, limit)` (rateLimit.js:44-83) acting on the
timestamp history stored for one key.  `stored` is `storage.get(key) || []`,
`now` is `Date.now()`.  Returns the decision together with the history that is
stored for the key afterwards: on an allowed check the source writes back the
window-filtered history with `now` appended, on a denied check it performs no
`storage.set` at all, so the stored history is unchanged.
`Math.max(0, …)` is rendered by `Int.toNat`, and `Math.ceil(a / 1000)` for the
nonnegative integer `a = resetAt - now` by negated floor division. -/
def checkLimit (stored : List Int) (now : Int) (cfg : RateLimitCfg) :
    Decision × List Int :=
  let windowStart : Int := now - (cfg.window : Int) * 1000
  let entries := stored.filter (fun e => decide (windowStart ≤ e))
  let count := entries.length
  let allowed := decide (count < cfg.max)
  let remaining := ((cfg.max : Int) - (count : Int) - (if allowed then 1 else 0)).toNat
  let resetAt : Int :=
    match entries with
    | [] => now + (cfg.window : Int) * 1000
    | e :: es => es.foldl min e + (cfg.window : Int) * 1000
  let retryAfter : Int :=
    match entries with
    | [] => 0
    | _ :: _ => -((-(resetAt - now)) / 1000)
  ({ allowed := allowed, remaining := remaining, limit := cfg.max,
     resetAt := resetAt, retryAfter := if allowed then 0 else retryAfter },
   if allowed then entries ++ [now] else stored)

/-- Iterated `checkLimit` on one key: the list of decisions produced by a
sequence of checks at the given times. -/
def runChecks (cfg : RateLimitCfg) : List Int → List Int → List Decision
  | _, [] => []
  | stored, t :: ts =>
    (checkLimit stored t cfg).1 :: runChecks cfg (checkLimit stored t cfg).2 ts

/-- When every stored timestamp is still inside the window of the current
check, the window filter keeps the whole history, so the decision counts the
full stored history and an allowed check appends `now` to it. -/
theorem checkLimit_all_inWindow (stored : List Int) (now : Int)
    (cfg : RateLimitCfg)
    (h : ∀ s ∈ stored, now - (cfg.window : Int) * 1000 ≤ s) :
    (checkLimit stored now cfg).1.allowed = decide (stored.length < cfg.max) ∧
    (checkLimit stored now cfg).1.remaining
      = cfg.max - stored.length - (if stored.length < cfg.max then 1 else 0) ∧
    (checkLimit stored now cfg).2
      = if stored.length < cfg.max then stored ++ [now] else stored := by
  have hfilter :
      stored.filter (fun e => decide (now - (cfg.window : Int) * 1000 ≤ e))
        = stored :=
    List.filter_eq_self.mpr (fun a ha => by simpa using h a ha)
  unfold checkLimit
  simp only [hfilter]
  by_cases hlt : stored.length < cfg.max
  · refine ⟨by simp [hlt], ?_, by simp [hlt]⟩
    simp only [decide_eq_true_eq]
    simp only [if_pos hlt]
    omega
  · refine ⟨by simp [hlt], ?_, by simp [hlt]⟩
    simp only [decide_eq_true_eq]
    simp only [if_neg hlt]
    omega

/-- Core induction for the quota claim: while the whole stored history and all
remaining check times lie inside one window interval
`[t0, t0 + window*1000]`, the i-th remaining check is admitted with a
`remaining` value counting down as long as fewer than `max` events are on the
books, and denied once `max` events are. -/
theorem runChecks_window (cfg : RateLimitCfg) (t0 : Int) (ts : List Int) :
    ∀ stored : List Int,
      (∀ t ∈ ts, t0 ≤ t ∧ t ≤ t0 + (cfg.window : Int) * 1000) →
      (∀ s ∈ stored, t0 ≤ s ∧ s ≤ t0 + (cfg.window : Int) * 1000) →
      stored.length + ts.length ≤ cfg.max + 1 →
      ∀ i, i < ts.length →
        (stored.length + i < cfg.max →
          (runChecks cfg stored ts)[i]!.allowed = true ∧
          (runChecks cfg stored ts)[i]!.remaining
            = cfg.max - stored.length - i - 1) ∧
        (cfg.max ≤ stored.length + i →
          (runChecks cfg stored ts)[i]!.allowed = false) := by
  induction ts with
  | nil => intro stored _ _ _ i hi; simp at hi
  | cons t ts ih =>
    intro stored hts hst hlen i hi
    have hwt : t0 ≤ t ∧ t ≤ t0 + (cfg.window : Int) * 1000 := hts t (by simp)
    have hstep := checkLimit_all_inWindow stored t cfg (fun s hs => by
      have hw := hst s hs; omega)
    by_cases hfull : stored.length < cfg.max
    · have hall : (checkLimit stored t cfg).1.allowed = true := by
        rw [hstep.1]; exact decide_eq_true hfull
      have hrem : (checkLimit stored t cfg).1.remaining
          = cfg.max - stored.length - 1 := by
        rw [hstep.2.1, if_pos hfull]
      have hst2 : (checkLimit stored t cfg).2 = stored ++ [t] := by
        rw [hstep.2.2, if_pos hfull]
      cases i with
      | zero =>
        refine ⟨fun _ => ⟨?_, ?_⟩, fun hge => by omega⟩
        · simp [runChecks, hall]
        · simp [runChecks, hrem]
      | succ j =>
        have hj : j < ts.length := by simpa using hi
        have ihj := ih (stored ++ [t])
          (fun u hu => hts u (by simp [hu]))
          (fun s hs => by
            rcases List.mem_append.mp hs with h1 | h1
            · exact hst s h1
            · simp only [List.mem_singleton] at h1; subst h1; exact hwt)
          (by simp at hlen ⊢; omega) j hj
        constructor
        · intro hlt
          have hres := ihj.1 (by simp; omega)
          simp only [runChecks, hst2, List.getElem!_cons_succ]
          refine ⟨hres.1, ?_⟩
          have h2 := hres.2
          simp only [List.length_append, List.length_singleton] at h2
          omega
        · intro hge
          have hres := ihj.2 (by simp; omega)
          simp only [runChecks, hst2, List.getElem!_cons_succ]
          exact hres
    · have hone : ts.length = 0 ∧ i = 0 := by
        simp only [List.length_cons] at hlen hi; omega
      obtain ⟨hts0, hi0⟩ := hone
      subst hi0
      have hall : (checkLimit stored t cfg).1.allowed = false := by
        rw [hstep.1]; exact decide_eq_false hfull
      refine ⟨fun hlt => by omega, fun _ => ?_⟩
      simp [runChecks, hall]

/-- C3: for every limit with `max ≥ 1` and every sequence of `max + 1` check
times lying within one window, starting from an empty history the first `max`
checks are all allowed, with `remaining` strictly decreasing by one per
admitted check from `max − 1` down to `0`, and the `(max+1)`-th check within
the same window is denied. -/
theorem claim_C3_rate_limit_quota (cfg : RateLimitCfg) (_hmax : 1 ≤ cfg.max)
    (ts : List Int) (t0 : Int) (hlen : ts.length = cfg.max + 1)
    (hwin : ∀ t ∈ ts, t0 ≤ t ∧ t ≤ t0 + (cfg.window : Int) * 1000) :
    (∀ i, i < cfg.max →
        (runChecks cfg [] ts)[i]!.allowed = true ∧
        (runChecks cfg [] ts)[i]!.remaining = cfg.max - 1 - i) ∧
    (runChecks cfg [] ts)[cfg.max]!.allowed = false := by
  constructor
  · intro i hi
    have h := runChecks_window cfg t0 ts [] hwin (by simp)
      (by simp [hlen]) i (by omega)
    have h1 := h.1 (by simpa using hi)
    refine ⟨h1.1, ?_⟩
    have h2 := h1.2
    simp only [List.length_nil] at h2
    omega
  · have h := runChecks_window cfg t0 ts [] hwin (by simp)
      (by simp [hlen]) cfg.max (by omega)
    exact h.2 (by simp)

/-- Witness for C3 at the spec's own example: limit `{max 2, window 60}` and
three checks of one key at t = 0, 1, 2 ms give allowed (remaining 1),
allowed (remaining 0), denied. -/
theorem claim_C3_rate_limit_quota_witness :
    (runChecks ⟨2, 60⟩ [] [0, 1, 2])[0]!.allowed = true ∧
    (runChecks ⟨2, 60⟩ [] [0, 1, 2])[0]!.remaining = 1 ∧
    (runChecks ⟨2, 60⟩ [] [0, 1, 2])[1]!.allowed = true ∧
    (runChecks ⟨2, 60⟩ [] [0, 1, 2])[1]!.remaining = 0 ∧
    (runChecks ⟨2, 60⟩ [] [0, 1, 2])[2]!.allowed = false := by
  have h := claim_C3_rate_limit_quota ⟨2, 60⟩ (by decide) [0, 1, 2] 0 (by decide)
    (by intro t ht
        simp only [List.mem_cons, List.not_mem_nil, or_false] at ht
        rcases ht with h1 | h1 | h1 <;> subst h1 <;> decide)
  refine ⟨(h.1 0 (by decide)).1, ?_, (h.1 1 (by decide)).1, ?_, h.2⟩
  · exact ((h.1 0 (by decide)).2).trans (by decide)
  · exact ((h.1 1 (by decide)).2).trans (by decide)

/-- C4: a denied `checkLimit` call leaves the stored timestamp history of its
key unchanged (the source only calls `storage.set` inside `if (allowed)`), so
the immediately following check of the same key returns exactly what it would
have returned had the denied check never happened. -/
theorem claim_C4_denied_check_consumes_no_quota (stored : List Int)
    (now now2 : Int) (cfg : RateLimitCfg)
    (h : (checkLimit stored now cfg).1.allowed = false) :
    (checkLimit stored now cfg).2 = stored ∧
    checkLimit (checkLimit stored now cfg).2 now2 cfg
      = checkLimit stored now2 cfg := by
  have hcond : decide ((stored.filter
      (fun e => decide (now - (cfg.window : Int) * 1000 ≤ e))).length < cfg.max)
      = false := h
  have h2 : (checkLimit stored now cfg).2 = stored := by
    unfold checkLimit
    simp only [hcond, Bool.false_eq_true, if_false]
  exact ⟨h2, by rw [h2]⟩

/-- Witness for C4: with limit 1/60 s and one event already stored, a check is
denied, stores nothing, and the following check behaves as if it never
happened. -/
theorem claim_C4_denied_check_consumes_no_quota_witness :
    (checkLimit [0] 0 ⟨1, 60⟩).1.allowed = false ∧
    (checkLimit [0] 0 ⟨1, 60⟩).2 = [0] ∧
    checkLimit (checkLimit [0] 0 ⟨1, 60⟩).2 7 ⟨1, 60⟩
      = checkLimit [0] 7 ⟨1, 60⟩ := by
  have h : (checkLimit [0] 0 ⟨1, 60⟩).1.allowed = false := by decide
  have h2 := claim_C4_denied_check_consumes_no_quota [0] 0 7 ⟨1, 60⟩ h
  exact ⟨h, h2.1, h2.2⟩

/-! ## Comment listing and tree assembly (src/src/services/CommentService.js) -/

/-- One row of the flat comment record set selected by
`CommentService.getByPost` (CommentService.js:98-108): the columns that the
`ORDER BY` clause and `buildCommentTree` consult.  Ids are numeric here,
matching the spec's worked example; `parent_id = none` renders SQL `NULL` and
a numeric id `0` is falsy in the JS truthiness test of the second pass. -/
structure CRow where
  id : Nat
  parent_id : Option Nat
  depth : Nat
  score : Int
  upvotes : Int
  downvotes : Int
  created_at : Int
deriving Repr, DecidableEq

/-- Ordering key of the `controversial` sort
(CommentService.js:89-90): `(upvotes + downvotes) *
(1 - ABS(upvotes - downvotes) / GREATEST(upvotes + downvotes, 1))`.
All columns are SQL `INTEGER`, so the division is PostgreSQL integer
division; its dividend is nonnegative and its divisor positive, where
Lean's Euclidean `/` agrees with SQL's truncating `/`. -/
def controversyKey (c : CRow) : Int :=
  (c.upvotes + c.downvotes) *
    (1 - ((c.upvotes - c.downvotes).natAbs : Int) / max (c.upvotes + c.downvotes) 1)

/-- Secondary comparison of `getByPost`'s `ORDER BY`, one per sort mode
(CommentService.js:83-96): `new` is `created_at DESC`, `controversial` is the
controversy key descending, and `top` (also the default) is
`score DESC, created_at ASC`. -/
def modeLE (sort : String) (a b : CRow) : Bool :=
  if sort = "new" then decide (b.created_at ≤ a.created_at)
  else if sort = "controversial" then
    decide (controversyKey b ≤ controversyKey a)
  else decide (b.score < a.score)
    || (decide (a.score = b.score) && decide (a.created_at ≤ b.created_at))

/-- The complete row ordering of `getByPost`'s query: the source's `ORDER BY
c.depth ASC, ${orderBy}` compares depth first, ascending, and applies the
sort-mode key only between rows of equal depth. -/
def codeLE (sort : String) (a b : CRow) : Bool :=
  decide (a.depth < b.depth) || (decide (a.depth = b.depth) && modeLE sort a b)

/-- The flat, ordered, `LIMIT`-capped comment list that
`CommentService.getByPost` hands to `buildCommentTree`: the post's rows
sorted by the `ORDER BY` comparator, truncated to `limit` rows.  The SQL
sort is modelled by a structural (insertion) sort over the comparator. -/
def getByPostFlat (sort : String) (rows : List CRow) (limit : Nat) :
    List CRow :=
  (rows.insertionSort (fun a b => codeLE sort a b = true)).take limit

theorem codeLE_trans (sort : String) (a b c : CRow)
    (hab : codeLE sort a b = true) (hbc : codeLE sort b c = true) :
    codeLE sort a c = true := by
  unfold codeLE modeLE at hab hbc ⊢
  by_cases h1 : sort = "new"
  · simp only [if_pos h1, Bool.or_eq_true, Bool.and_eq_true,
      decide_eq_true_eq] at hab hbc ⊢
    omega
  · by_cases h2 : sort = "controversial"
    · simp only [if_neg h1, if_pos h2, Bool.or_eq_true, Bool.and_eq_true,
        decide_eq_true_eq] at hab hbc ⊢
      omega
    · simp only [if_neg h1, if_neg h2, Bool.or_eq_true, Bool.and_eq_true,
        decide_eq_true_eq] at hab hbc ⊢
      omega

theorem codeLE_total (sort : String) (a b : CRow) :
    codeLE sort a b = true ∨ codeLE sort b a = true := by
  unfold codeLE modeLE
  by_cases h1 : sort = "new"
  · simp only [if_pos h1, Bool.or_eq_true, Bool.and_eq_true,
      decide_eq_true_eq]
    omega
  · by_cases h2 : sort = "controversial"
    · simp only [if_neg h1, if_pos h2, Bool.or_eq_true, Bool.and_eq_true,
        decide_eq_true_eq]
      omega
    · simp only [if_neg h1, if_neg h2, Bool.or_eq_true, Bool.and_eq_true,
        decide_eq_true_eq]
      omega

/-- Claim-side ordering for C7, following the claim's words: primarily the
requested sort-mode key, and only secondarily ascending depth. -/
def specClaimLE (sort : String) (a b : CRow) : Bool :=
  (modeLE sort a b && !(modeLE sort b a))
    || (modeLE sort a b && modeLE sort b a && decide (a.depth ≤ b.depth))

/-- C7 (amended): for every row set, sort mode and limit, the flat list handed
to tree assembly by `getByPost` is sorted by the source's comparator, which
orders primarily by ascending depth and only secondarily by the requested
sort-mode key; consequently depth is nondecreasing along the list, so a
parent — whose depth is strictly smaller than its child's — is visited no
later than any child. -/
theorem claim_C7_depth_primary_order (sort : String) (rows : List CRow)
    (limit : Nat) :
    List.Pairwise (fun a b => codeLE sort a b = true)
      (getByPostFlat sort rows limit) ∧
    List.Pairwise (fun a b : CRow => a.depth ≤ b.depth)
      (getByPostFlat sort rows limit) := by
  haveI : IsTotal CRow (fun a b => codeLE sort a b = true) :=
    ⟨codeLE_total sort⟩
  haveI : IsTrans CRow (fun a b => codeLE sort a b = true) :=
    ⟨codeLE_trans sort⟩
  have hs : List.Sorted (fun a b => codeLE sort a b = true)
      (rows.insertionSort (fun a b => codeLE sort a b = true)) :=
    List.sorted_insertionSort _ _
  have h1 : List.Pairwise (fun a b => codeLE sort a b = true)
      (getByPostFlat sort rows limit) :=
    List.Pairwise.sublist (List.take_sublist _ _) hs
  refine ⟨h1, h1.imp ?_⟩
  intro a b hab
  unfold codeLE at hab
  simp only [Bool.or_eq_true, Bool.and_eq_true, decide_eq_true_eq] at hab
  omega

def exC7parent : CRow := ⟨1, none, 0, 1, 0, 0, 0⟩

def exC7child : CRow := ⟨2, some 1, 1, 5, 0, 0, 0⟩

/-- Counterexample for C7 as stated: under sort mode `top` the source's
`ORDER BY c.depth ASC, c.score DESC, …` places the depth-0 parent with score 1
before its depth-1 child with score 5, so the flat list is not ordered
primarily by the sort-mode key (which would put the score-5 child first). -/
theorem claim_C7_counterexample :
    getByPostFlat "top" [exC7child, exC7parent] 100
      = [exC7parent, exC7child] ∧
    ¬ List.Pairwise (fun a b => specClaimLE "top" a b = true)
      (getByPostFlat "top" [exC7child, exC7parent] 100) := by
  constructor
  · decide
  · decide

/-- JS truthiness-and-membership guard of the second pass of
`buildCommentTree` (CommentService.js:132), on the parent id:
`comment.parent_id && commentMap.has(comment.parent_id)`.  A SQL `NULL`
(`none`) or the falsy numeric id 0 fails it; otherwise the parent id must
occur among the input ids (the map is keyed by every input id). -/
def truthyAttach (ids : List Nat) : Option Nat → Bool
  | some p => (p != 0) && ids.contains p
  | none => false

/-- Does `buildCommentTree` attach row `c` below a parent? -/
def attachesToParent (ids : List Nat) (c : CRow) : Bool :=
  truthyAttach ids c.parent_id

/-- Guard for row `c` being appended to the replies of the node with id `x`. -/
def attachTarget (ids : List Nat) (x : Nat) : Option Nat → Bool
  | some p => ((p != 0) && ids.contains p) && (p == x)
  | none => false

/-- Is row `c` attached to the node with id `x` by `buildCommentTree`? -/
def attachesTo (ids : List Nat) (x : Nat) (c : CRow) : Bool :=
  attachTarget ids x c.parent_id

/-- One step of the second pass of `buildCommentTree`
(CommentService.js:131-137), split on the parent id.  The accumulator is the
root id list together with the replies id list of every node; the row's id is
appended to its parent's replies when the guard holds, else to the roots. -/
def attachStepCore (ids : List Nat) (acc : List Nat × (Nat → List Nat))
    (cid : Nat) : Option Nat → List Nat × (Nat → List Nat)
  | some p =>
    if (p != 0) && ids.contains p then
      (acc.1, fun y => if y = p then acc.2 y ++ [cid] else acc.2 y)
    else (acc.1 ++ [cid], acc.2)
  | none => (acc.1 ++ [cid], acc.2)

/-- One step of the second pass, on a comment row. -/
def attachStep (ids : List Nat) (acc : List Nat × (Nat → List Nat))
    (c : CRow) : List Nat × (Nat → List Nat) :=
  attachStepCore ids acc c.id c.parent_id

/-- Embedding of `CommentService.buildCommentTree`
(CommentService.js:120-140).  The first pass gives every node an empty
replies list and builds an id map holding every input id; because the second
pass mutates nodes through that shared map, a node's final replies list is
everything appended to it over the whole pass, wherever the node itself ended
up.  The function is therefore rendered as the root id list together with the
final replies id list of every id. -/
def buildCommentTree (comments : List CRow) : List Nat × (Nat → List Nat) :=
  comments.foldl (attachStep (comments.map (fun c => c.id))) ([], fun _ => [])

/-- Characterization of the second-pass fold: starting from any accumulator,
the root list gains exactly the non-attached rows' ids in input order, and
each id's replies list gains exactly the ids of the rows attached to it, in
input order. -/
theorem attachStep_foldl (ids : List Nat) (cs : List CRow) :
    ∀ acc : List Nat × (Nat → List Nat),
      (cs.foldl (attachStep ids) acc).1
        = acc.1 ++ (cs.filter (fun c => !attachesToParent ids c)).map
            (fun c => c.id) ∧
      ∀ x, (cs.foldl (attachStep ids) acc).2 x
        = acc.2 x ++ (cs.filter (attachesTo ids x)).map (fun c => c.id) := by
  induction cs with
  | nil => intro acc; simp
  | cons c cs ih =>
    intro acc
    rcases hp : c.parent_id with _ | p
    · have hstep : attachStep ids acc c = (acc.1 ++ [c.id], acc.2) := by
        simp [attachStep, attachStepCore, hp]
      have hroot : attachesToParent ids c = false := by
        simp [attachesToParent, truthyAttach, hp]
      constructor
      · rw [List.foldl_cons, hstep, (ih _).1]
        simp [List.filter_cons, hroot]
      · intro x
        rw [List.foldl_cons, hstep, (ih _).2 x]
        have hx : attachesTo ids x c = false := by
          simp [attachesTo, attachTarget, hp]
        simp [List.filter_cons, hx]
    · by_cases hg : ((p != 0) && ids.contains p) = true
      · have hstep : attachStep ids acc c
            = (acc.1, fun y => if y = p then acc.2 y ++ [c.id] else acc.2 y) := by
          simp only [attachStep, attachStepCore, hp]
          rw [if_pos hg]
        have hroot : attachesToParent ids c = true := by
          simp only [attachesToParent, truthyAttach, hp]
          exact hg
        constructor
        · rw [List.foldl_cons, hstep, (ih _).1]
          simp [List.filter_cons, hroot]
        · intro x
          rw [List.foldl_cons, hstep, (ih _).2 x]
          by_cases hx : x = p
          · subst hx
            have hat : attachesTo ids x c = true := by
              simp only [attachesTo, attachTarget, hp, hg, Bool.true_and]
              simp
            simp [List.filter_cons, hat, List.append_assoc]
          · have hat : attachesTo ids x c = false := by
              simp only [attachesTo, attachTarget, hp, hg, Bool.true_and]
              simp only [beq_eq_false_iff_ne, ne_eq]
              omega
            simp [List.filter_cons, hat, hx]
      · have hg2 : ((p != 0) && ids.contains p) = false := by
          simpa using hg
        have hstep : attachStep ids acc c = (acc.1 ++ [c.id], acc.2) := by
          simp only [attachStep, attachStepCore, hp]
          rw [if_neg hg]
        have hroot : attachesToParent ids c = false := by
          simp only [attachesToParent, truthyAttach, hp]
          exact hg2
        constructor
        · rw [List.foldl_cons, hstep, (ih _).1]
          simp [List.filter_cons, hroot]
        · intro x
          rw [List.foldl_cons, hstep, (ih _).2 x]
          have hat : attachesTo ids x c = false := by
            simp only [attachesTo, attachTarget, hp, hg2, Bool.false_and]
          simp [List.filter_cons, hat]

/-- C9 (amended): for every flat input list with pairwise-distinct ids,
`buildCommentTree` gives every node an empty replies list, then appends each
node, in input order, to the replies list of its parent when the parent id is
truthy (non-null and nonzero) and a node with that parent id is present in
the input, and otherwise places the node in the returned root list: the roots
collect, in input order, exactly the nodes not attached below a parent, and
each node x's replies collect, in input order, exactly the nodes attached to
x. -/
theorem claim_C9_tree_assembly (comments : List CRow)
    (_hids : (comments.map (fun c => c.id)).Nodup) :
    (buildCommentTree comments).1
      = (comments.filter
          (fun c => !attachesToParent (comments.map (fun c => c.id)) c)).map
          (fun c => c.id) ∧
    ∀ x, (buildCommentTree comments).2 x
      = (comments.filter (attachesTo (comments.map (fun c => c.id)) x)).map
          (fun c => c.id) := by
  have h := attachStep_foldl (comments.map (fun c => c.id)) comments
    ([], fun _ => [])
  exact ⟨by simpa using h.1, fun x => by simpa using h.2 x⟩

/-- The spec's worked example for tree assembly. -/
def exTree : List CRow :=
  [⟨1, none, 0, 0, 0, 0, 0⟩, ⟨2, some 1, 1, 0, 0, 0, 0⟩,
   ⟨3, some 1, 1, 0, 0, 0, 0⟩, ⟨4, some 2, 2, 0, 0, 0, 0⟩]

/-- Witness for C9 on the spec's example: root `[1]`, replies of 1 are
`[2, 3]`, replies of 2 are `[4]`. -/
theorem claim_C9_tree_assembly_witness :
    (buildCommentTree exTree).1 = [1] ∧
    (buildCommentTree exTree).2 1 = [2, 3] ∧
    (buildCommentTree exTree).2 2 = [4] ∧
    (buildCommentTree exTree).2 3 = [] ∧
    (buildCommentTree exTree).2 4 = [] := by
  have h := claim_C9_tree_assembly exTree (by decide)
  exact ⟨h.1.trans (by decide), (h.2 1).trans (by decide),
    (h.2 2).trans (by decide), (h.2 3).trans (by decide),
    (h.2 4).trans (by decide)⟩

def exTrap : List CRow :=
  [⟨0, none, 0, 0, 0, 0, 0⟩, ⟨5, some 0, 1, 0, 0, 0, 0⟩]

/-- Counterexample for C9 as stated: node 5's parent id is 0 and a node with
id 0 is present in the input, yet the source's truthiness test
`comment.parent_id && …` treats the numeric parent id 0 as falsy and promotes
node 5 to the root list instead of appending it to node 0's replies list. -/
theorem claim_C9_counterexample :
    (⟨5, some 0, 1, 0, 0, 0, 0⟩ : CRow) ∈ exTrap ∧
    (⟨0, none, 0, 0, 0, 0, 0⟩ : CRow) ∈ exTrap ∧
    (buildCommentTree exTrap).1 = [0, 5] ∧
    (buildCommentTree exTrap).2 0 = [] := by
  refine ⟨by decide, by decide, by decide, by decide⟩

/-- Claim-side controversy key for C8: the same formula read in exact rational
arithmetic. -/
def controversySpecKey (c : CRow) : Rat :=
  ((c.upvotes : Rat) + (c.downvotes : Rat)) *
    (1 - |(c.upvotes : Rat) - (c.downvotes : Rat)|
      / max ((c.upvotes : Rat) + (c.downvotes : Rat)) 1)

/-- C8 (amended): for every comment row with tallies `up, down ≥ 0`, the
`controversial` sort key is computed with SQL integer (truncating) division:
the integer quotient `|up − down| / max(up + down, 1)` is 1 when exactly one
tally is zero while the other is positive and 0 otherwise, so the key equals
`up + down` when both tallies are positive and 0 otherwise — in particular 0
for `up = down = 0`. -/
theorem claim_C8_controversy_key_integer_division (c : CRow) (u d : Nat)
    (hu : c.upvotes = (u : Int)) (hd : c.downvotes = (d : Int)) :
    controversyKey c = if 0 < u ∧ 0 < d then (u : Int) + (d : Int) else 0 := by
  unfold controversyKey
  rw [hu, hd]
  by_cases hud : 0 < u ∧ 0 < d
  · have h0 : (0 : Int) ≤ (((u : Int) - (d : Int)).natAbs : Int) := by positivity
    have hmax : max ((u : Int) + (d : Int)) 1 = (u : Int) + (d : Int) := by
      omega
    have hlt : ((((u : Int) - (d : Int)).natAbs : Int)) < (u : Int) + (d : Int) := by
      omega
    rw [if_pos hud, hmax, Int.ediv_eq_zero_of_lt h0 hlt]
    ring
  · rw [if_neg hud]
    by_cases hu0 : u = 0
    · by_cases hd0 : d = 0
      · have h1 : (u : Int) = 0 := by omega
        have h2 : (d : Int) = 0 := by omega
        rw [h1, h2]
        norm_num
      · have habs : (((u : Int) - (d : Int)).natAbs : Int)
            = (u : Int) + (d : Int) := by omega
        have hmax : max ((u : Int) + (d : Int)) 1 = (u : Int) + (d : Int) := by
          omega
        have hne : (u : Int) + (d : Int) ≠ 0 := by omega
        rw [habs, hmax, Int.ediv_self hne]
        ring
    · have hd0 : d = 0 := by omega
      have habs : (((u : Int) - (d : Int)).natAbs : Int)
          = (u : Int) + (d : Int) := by omega
      have hmax : max ((u : Int) + (d : Int)) 1 = (u : Int) + (d : Int) := by
        omega
      have hne : (u : Int) + (d : Int) ≠ 0 := by omega
      rw [habs, hmax, Int.ediv_self hne]
      ring

/-- Witness for C8 (amended) at the degenerate zero-vote comment: the key is
0, as the spec's open-question note records. -/
theorem claim_C8_controversy_key_integer_division_witness :
    controversyKey ⟨9, none, 0, 0, 0, 0, 7⟩ = 0 := by
  have h := claim_C8_controversy_key_integer_division ⟨9, none, 0, 0, 0, 0, 7⟩
    0 0 rfl rfl
  simpa using h

def exContro : CRow := ⟨9, none, 0, 2, 3, 1, 0⟩

/-- Counterexample for C8 as stated: at 3 upvotes and 1 downvote the code's
SQL integer division yields the key `4 * (1 - 2/4) = 4 * (1 - 0) = 4`, whereas
the formula in exact rational arithmetic yields `4 * (1 - 1/2) = 2`. -/
theorem claim_C8_counterexample :
    controversyKey exContro = 4 ∧
    controversySpecKey exContro = 2 ∧
    (4 : Rat) ≠ (2 : Rat) := by
  refine ⟨by decide, ?_, by norm_num⟩
  norm_num [controversySpecKey, exContro]

/-! ## Vote ledger (src/unnamed/part_001, VoteService) -/

/-- One row of the `votes` table (scripts/schema.sql): surrogate primary key
plus the (agent, target, target type, value) payload; the service writes
`value` +1 or −1. -/
structure VoteRow where
  id : Nat
  agent_id : String
  target_id : String
  target_type : String
  value : Int
deriving Repr, DecidableEq

/-- The columns of a `posts` row that the vote path consults. -/
structure PostRow where
  id : String
  author_id : String
  score : Int
deriving Repr, DecidableEq

/-- The columns of a `comments` row that the vote path consults
(`CommentService.updateScore` maintains `score`, `upvotes`, `downvotes`). -/
structure CommentRow where
  id : String
  author_id : String
  score : Int
  upvotes : Int
  downvotes : Int
deriving Repr, DecidableEq

/-- The columns of an `agents` row that the vote path consults. -/
structure AgentRow where
  id : String
  name : String
  karma : Int
deriving Repr, DecidableEq

/-- The relational store as the vote path sees it; `nextVoteId` models fresh
surrogate-id allocation on insert. -/
structure DB where
  posts : List PostRow
  comments : List CommentRow
  agents : List AgentRow
  votes : List VoteRow
  nextVoteId : Nat
deriving Repr, DecidableEq

/-- Errors surfaced by the vote path: the service's `BadRequestError` and
`NotFoundError`, plus the failure of an external propagation step. -/
inductive ApiErr where
  | badRequest (msg : String)
  | notFound (what : String)
  | internalError (msg : String)
deriving Repr, DecidableEq

/-- The SELECT of the caller's existing vote (part_001:96-99). -/
def findVote (db : DB) (agentId targetId targetType : String) :
    Option VoteRow :=
  db.votes.find? (fun v =>
    v.agent_id == agentId && v.target_id == targetId
      && v.target_type == targetType)

/-- Embedding of `VoteService.getTarget` (part_001:169-191): looks up the
target row's author, with invalid-type and not-found errors. -/
def getTarget (db : DB) (targetId targetType : String) :
    Except ApiErr String :=
  if targetType = "post" then
    match db.posts.find? (fun p => p.id == targetId) with
    | some p => Except.ok p.author_id
    | none => Except.error (ApiErr.notFound "Post")
  else if targetType = "comment" then
    match db.comments.find? (fun c => c.id == targetId) with
    | some c => Except.ok c.author_id
    | none => Except.error (ApiErr.notFound "Comment")
  else Except.error (ApiErr.badRequest "Invalid target type")

/-- Modelled from the spec: `PostService.updateScore` is not among the
provided sources (only its call site in `VoteService.vote` is); the spec's
external contract `applyScoreDelta(targetId, delta)` adds `delta` to the
target post's stored score counter. -/
def postUpdateScore (db : DB) (postId : String) (delta : Int) : DB :=
  { db with posts := db.posts.map (fun p =>
      if p.id == postId then { p with score := p.score + delta } else p) }

/-- Embedding of `CommentService.updateScore`
(src/src/services/CommentService.js:200-214): adds `delta` to `score` and
adds `voteChange = delta > 0 ? 1 : -1` to the `upvotes` column when
`isUpvote` and to the `downvotes` column otherwise, on the matching row. -/
def commentUpdateScore (db : DB) (commentId : String) (delta : Int)
    (isUp : Bool) : DB :=
  { db with comments := db.comments.map (fun c =>
      if c.id == commentId then
        if isUp then
          { c with score := c.score + delta,
                   upvotes := c.upvotes + (if delta > 0 then 1 else -1) }
        else
          { c with score := c.score + delta,
                   downvotes := c.downvotes + (if delta > 0 then 1 else -1) }
      else c) }

/-- Modelled from the spec: `AgentService.updateKarma` is not among the
provided sources; the spec's `applyKarmaDelta(agentId, delta)` adds `delta`
to the agent's stored karma counter. -/
def agentUpdateKarma (db : DB) (agentId : String) (delta : Int) : DB :=
  { db with agents := db.agents.map (fun a =>
      if a.id == agentId then { a with karma := a.karma + delta } else a) }

/-- Modelled from the spec: `AgentService.findById` is not among the provided
sources; a read-only lookup of an agent row. -/
def agentFindById (db : DB) (agentId : String) : Option AgentRow :=
  db.agents.find? (fun a => a.id == agentId)

/-- The response object of `VoteService.vote` (part_001:152-159). -/
structure VoteOutcome where
  action : String
  message : String
  authorName : Option String
deriving Repr, DecidableEq

/-- The INSERT of a fresh vote row (part_001:133-136). -/
def insertVoteDB (db : DB) (aid tid tty : String) (value : Int) : DB :=
  { db with
      votes := db.votes ++ [⟨db.nextVoteId, aid, tid, tty, value⟩],
      nextVoteId := db.nextVoteId + 1 }

/-- The DELETE of the found vote row by its id (part_001:112-115). -/
def deleteVoteDB (db : DB) (ev : VoteRow) : DB :=
  { db with votes := db.votes.filter (fun v => v.id != ev.id) }

/-- The UPDATE of the found vote row's value by its id (part_001:122-125). -/
def updateVoteDB (db : DB) (ev : VoteRow) (value : Int) : DB :=
  { db with votes := db.votes.map (fun v =>
      if v.id == ev.id then { v with value := value } else v) }

/-- The vote-row phase of `VoteService.vote` (part_001:101-137): the reported
action, the score delta, the karma delta, and the database after the INSERT,
UPDATE or DELETE of the vote row. -/
def voteRowStep (db : DB) (targetId targetType agentId : String)
    (value : Int) : String × Int × Int × DB :=
  match findVote db agentId targetId targetType with
  | some ev =>
    if ev.value == value then
      ("removed", -value, -value, deleteVoteDB db ev)
    else
      ("changed", value * 2, value * 2, updateVoteDB db ev value)
  | none =>
    (if value == 1 then "upvoted" else "downvoted", value, value,
     insertVoteDB db agentId targetId targetType value)

/-- Embedding of `VoteService.vote` (part_001:86-160).  The awaited steps are
independently committed statements — nothing is wrapped in a transaction — so
the returned database is the state committed by the steps that ran.
`scoreOk` and `karmaOk` say whether the external score and karma propagation
steps succeed; on a failing step the error is returned together with
everything already committed. -/
def voteRun (db : DB) (targetId targetType agentId : String) (value : Int)
    (scoreOk karmaOk : Bool) : Except ApiErr VoteOutcome × DB :=
  match getTarget db targetId targetType with
  | Except.error e => (Except.error e, db)
  | Except.ok authorId =>
    if authorId == agentId then
      (Except.error (ApiErr.badRequest "Cannot vote on your own content"), db)
    else
      let step := voteRowStep db targetId targetType agentId value
      if scoreOk then
        let db2 :=
          if targetType = "post" then
            postUpdateScore step.2.2.2 targetId step.2.1
          else commentUpdateScore step.2.2.2 targetId step.2.1 (value == 1)
        if karmaOk then
          let db3 := agentUpdateKarma db2 authorId step.2.2.1
          (Except.ok
            { action := step.1,
              message :=
                if step.1 == "upvoted" then "Upvoted!"
                else if step.1 == "downvoted" then "Downvoted!"
                else if step.1 == "removed" then "Vote removed!"
                else "Vote changed!",
              authorName := (agentFindById db3 authorId).map (fun a => a.name) },
           db3)
        else (Except.error (ApiErr.internalError "karma update failed"), db2)
      else (Except.error (ApiErr.internalError "score update failed"),
        step.2.2.2)

/-- `VoteService.vote` with both externally-owned propagation steps
succeeding: the normal behavior. -/
def vote (db : DB) (targetId targetType agentId : String) (value : Int) :
    Except ApiErr VoteOutcome × DB :=
  voteRun db targetId targetType agentId value true true

/-- Score of a post (0 when absent, matching `result?.score || 0`). -/
def postScore (db : DB) (postId : String) : Int :=
  ((db.posts.find? (fun p => p.id == postId)).map (fun p => p.score)).getD 0

/-- Score of a comment (0 when absent). -/
def commentScore (db : DB) (commentId : String) : Int :=
  ((db.comments.find? (fun c => c.id == commentId)).map
    (fun c => c.score)).getD 0

/-- Upvote tally of a comment (0 when absent). -/
def commentUpvotes (db : DB) (commentId : String) : Int :=
  ((db.comments.find? (fun c => c.id == commentId)).map
    (fun c => c.upvotes)).getD 0

/-- Downvote tally of a comment (0 when absent). -/
def commentDownvotes (db : DB) (commentId : String) : Int :=
  ((db.comments.find? (fun c => c.id == commentId)).map
    (fun c => c.downvotes)).getD 0

/-- Karma of an agent (0 when absent). -/
def karmaOf (db : DB) (agentId : String) : Int :=
  ((db.agents.find? (fun a => a.id == agentId)).map (fun a => a.karma)).getD 0

/-- The stored score counter of a vote target. -/
def targetScore (db : DB) (targetId targetType : String) : Int :=
  if targetType = "post" then postScore db targetId
  else commentScore db targetId

/-- The stored vote value of a triple, as `VoteService.getVote` reports it. -/
def voteValueOf (db : DB) (agentId targetId targetType : String) :
    Option Int :=
  (findVote db agentId targetId targetType).map (fun v => v.value)

/-- The `votes` uniqueness invariant (schema:
`UNIQUE(agent_id, target_id, target_type)`): no two stored rows share a
triple. -/
def votesDistinct (db : DB) : Prop :=
  List.Pairwise (fun v w : VoteRow =>
    ¬(v.agent_id = w.agent_id ∧ v.target_id = w.target_id
        ∧ v.target_type = w.target_type)) db.votes

/-- Number of stored votes with the given value on a target. -/
def countVotes (db : DB) (targetId targetType : String) (v : Int) : Nat :=
  (db.votes.filter (fun w =>
    w.target_id == targetId && w.target_type == targetType
      && w.value == v)).length

/-- Claim-side transition table of C1 (spec §4.3): the reported action as a
function of the stored vote value (or absence) and the requested value. -/
def tableAction (pre : Option Int) (value : Int) : String :=
  match pre with
  | none => if value = 1 then "upvoted" else "downvoted"
  | some v => if v = value then "removed" else "changed"

/-- Claim-side transition table of C1: the stored vote after the call. -/
def tableStored (pre : Option Int) (value : Int) : Option Int :=
  match pre with
  | none => some value
  | some v => if v = value then none else some value

/-- Claim-side transition table of C1: the score delta, which also equals the
author-karma delta. -/
def tableDelta (pre : Option Int) (value : Int) : Int :=
  match pre with
  | none => value
  | some v => if v = value then -value else 2 * value

@[simp] theorem postUpdateScore_comments (db : DB) (pid : String) (d : Int) :
    (postUpdateScore db pid d).comments = db.comments := rfl

@[simp] theorem postUpdateScore_agents (db : DB) (pid : String) (d : Int) :
    (postUpdateScore db pid d).agents = db.agents := rfl

@[simp] theorem postUpdateScore_votes (db : DB) (pid : String) (d : Int) :
    (postUpdateScore db pid d).votes = db.votes := rfl

@[simp] theorem commentUpdateScore_posts (db : DB) (cid : String) (d : Int)
    (b : Bool) : (commentUpdateScore db cid d b).posts = db.posts := rfl

@[simp] theorem commentUpdateScore_agents (db : DB) (cid : String) (d : Int)
    (b : Bool) : (commentUpdateScore db cid d b).agents = db.agents := rfl

@[simp] theorem commentUpdateScore_votes (db : DB) (cid : String) (d : Int)
    (b : Bool) : (commentUpdateScore db cid d b).votes = db.votes := rfl

@[simp] theorem agentUpdateKarma_posts (db : DB) (aid : String) (d : Int) :
    (agentUpdateKarma db aid d).posts = db.posts := rfl

@[simp] theorem agentUpdateKarma_comments (db : DB) (aid : String) (d : Int) :
    (agentUpdateKarma db aid d).comments = db.comments := rfl

@[simp] theorem agentUpdateKarma_votes (db : DB) (aid : String) (d : Int) :
    (agentUpdateKarma db aid d).votes = db.votes := rfl

/-- `find?` commutes with mapping a function that leaves the search
predicate invariant. -/
theorem find?_map_invariant {α : Type} (p : α → Bool) (g : α → α)
    (hg : ∀ a, p (g a) = p a) (l : List α) :
    (l.map g).find? p = (l.find? p).map g := by
  induction l with
  | nil => rfl
  | cons a l ih =>
    by_cases ha : p a = true
    · rw [List.map_cons, List.find?_cons_of_pos _ (by rw [hg]; exact ha),
        List.find?_cons_of_pos _ ha]
      rfl
    · rw [List.map_cons, List.find?_cons_of_neg _ (by rw [hg]; exact ha),
        List.find?_cons_of_neg _ ha, ih]

/-- The score-counter update adds `delta` to the target post's score. -/
theorem postScore_update_self (db : DB) (postId : String) (delta : Int)
    (hex : (db.posts.find? (fun p => p.id == postId)).isSome) :
    postScore (postUpdateScore db postId delta) postId
      = postScore db postId + delta := by
  obtain ⟨prow, hfind⟩ := Option.isSome_iff_exists.mp hex
  have hid := List.find?_some hfind
  simp only [beq_iff_eq] at hid
  unfold postScore postUpdateScore
  rw [find?_map_invariant (fun p => p.id == postId)
    (fun p => if p.id == postId then { p with score := p.score + delta }
      else p)
    (by intro a; by_cases h : (a.id == postId) = true <;> simp [h]) db.posts]
  rw [hfind]
  simp [hid]

/-- Counterpart of `postScore_update_self` for comment targets: whatever the
tally column does, the score column gains exactly `delta`. -/
theorem commentScore_update_self (db : DB) (commentId : String) (delta : Int)
    (isUp : Bool)
    (hex : (db.comments.find? (fun c => c.id == commentId)).isSome) :
    commentScore (commentUpdateScore db commentId delta isUp) commentId
      = commentScore db commentId + delta := by
  obtain ⟨crow, hfind⟩ := Option.isSome_iff_exists.mp hex
  have hid := List.find?_some hfind
  simp only [beq_iff_eq] at hid
  unfold commentScore commentUpdateScore
  rw [find?_map_invariant (fun c => c.id == commentId)
    (fun c =>
      if c.id == commentId then
        if isUp then
          { c with score := c.score + delta,
                   upvotes := c.upvotes + (if delta > 0 then 1 else -1) }
        else
          { c with score := c.score + delta,
                   downvotes := c.downvotes + (if delta > 0 then 1 else -1) }
      else c)
    (by intro a
        by_cases h : (a.id == commentId) = true <;> cases isUp <;> simp [h])
    db.comments]
  rw [hfind]
  cases isUp <;> simp [hid]

/-- The karma update adds `delta` to the agent's karma counter. -/
theorem karmaOf_update_self (db : DB) (agentId : String) (delta : Int)
    (hex : (db.agents.find? (fun a => a.id == agentId)).isSome) :
    karmaOf (agentUpdateKarma db agentId delta) agentId
      = karmaOf db agentId + delta := by
  obtain ⟨arow, hfind⟩ := Option.isSome_iff_exists.mp hex
  have hid := List.find?_some hfind
  simp only [beq_iff_eq] at hid
  unfold karmaOf agentUpdateKarma
  rw [find?_map_invariant (fun a => a.id == agentId)
    (fun a => if a.id == agentId then { a with karma := a.karma + delta }
      else a)
    (by intro a; by_cases h : (a.id == agentId) = true <;> simp [h]) db.agents]
  rw [hfind]
  simp [hid]

/-- The post-score update does not move targets or authors: `getTarget` is
unchanged. -/
theorem getTarget_postUpdateScore (db : DB) (pid : String) (d : Int)
    (tid tty : String) :
    getTarget (postUpdateScore db pid d) tid tty = getTarget db tid tty := by
  unfold getTarget
  simp only [postUpdateScore_comments]
  by_cases h1 : tty = "post"
  · simp only [if_pos h1]
    have hmap : (postUpdateScore db pid d).posts.find? (fun p => p.id == tid)
        = (db.posts.find? (fun p => p.id == tid)).map
          (fun p => if p.id == pid then { p with score := p.score + d }
            else p) := by
      unfold postUpdateScore
      exact find?_map_invariant _ _
        (by intro a; by_cases h : (a.id == pid) = true <;> simp [h]) db.posts
    rw [hmap]
    rcases hf : db.posts.find? (fun p => p.id == tid) with _ | p <;> rw [hf]
    · rfl
    · simp only [Option.map_some']
      by_cases h : (p.id == pid) = true <;> simp [h]
  · simp only [if_neg h1]

/-- The comment-score update does not move targets or authors: `getTarget`
is unchanged. -/
theorem getTarget_commentUpdateScore (db : DB) (cid : String) (d : Int)
    (b : Bool) (tid tty : String) :
    getTarget (commentUpdateScore db cid d b) tid tty
      = getTarget db tid tty := by
  unfold getTarget
  simp only [commentUpdateScore_posts]
  by_cases h1 : tty = "post"
  · simp only [if_pos h1]
  · by_cases h2 : tty = "comment"
    · simp only [if_neg h1, if_pos h2]
      have hmap : (commentUpdateScore db cid d b).comments.find?
            (fun c => c.id == tid)
          = (db.comments.find? (fun c => c.id == tid)).map
            (fun c =>
              if c.id == cid then
                if b then
                  { c with score := c.score + d,
                           upvotes := c.upvotes + (if d > 0 then 1 else -1) }
                else
                  { c with score := c.score + d,
                           downvotes := c.downvotes + (if d > 0 then 1 else -1) }
              else c) := by
        unfold commentUpdateScore
        exact find?_map_invariant _ _
          (by intro a
              by_cases h : (a.id == cid) = true <;> cases b <;> simp [h])
          db.comments
      rw [hmap]
      rcases hf : db.comments.find? (fun c => c.id == tid) with _ | c <;>
        rw [hf]
      · rfl
      · simp only [Option.map_some']
        by_cases h : (c.id == cid) = true <;> cases b <;> simp [h]
    · simp only [if_neg h1, if_neg h2]

/-- The karma update reads and writes only `agents`: `getTarget` is
unchanged. -/
theorem getTarget_agentUpdateKarma (db : DB) (aid : String) (d : Int)
    (tid tty : String) :
    getTarget (agentUpdateKarma db aid d) tid tty = getTarget db tid tty :=
  rfl

/-- Branch equation of the row phase: no existing vote means INSERT. -/
theorem voteRowStep_none (db : DB) (tid tty aid : String) (value : Int)
    (hfind : findVote db aid tid tty = none) :
    voteRowStep db tid tty aid value
      = (if value == 1 then "upvoted" else "downvoted", value, value,
         insertVoteDB db aid tid tty value) := by
  unfold voteRowStep
  rw [hfind]

/-- Branch equation of the row phase: an existing vote in the same direction
means DELETE. -/
theorem voteRowStep_removed (db : DB) (tid tty aid : String) (value : Int)
    (ev : VoteRow) (hfind : findVote db aid tid tty = some ev)
    (hv : ev.value = value) :
    voteRowStep db tid tty aid value
      = ("removed", -value, -value, deleteVoteDB db ev) := by
  unfold voteRowStep
  rw [hfind]
  simp [hv]

/-- Branch equation of the row phase: an existing vote in the other direction
means UPDATE. -/
theorem voteRowStep_changed (db : DB) (tid tty aid : String) (value : Int)
    (ev : VoteRow) (hfind : findVote db aid tid tty = some ev)
    (hv : ev.value ≠ value) :
    voteRowStep db tid tty aid value
      = ("changed", value * 2, value * 2, updateVoteDB db ev value) := by
  unfold voteRowStep
  rw [hfind]
  simp [hv]

/-- After the INSERT, the caller's stored vote is exactly the fresh row. -/
theorem findVote_insert (db : DB) (aid tid tty : String) (value : Int)
    (hfind : findVote db aid tid tty = none) :
    findVote (insertVoteDB db aid tid tty value) aid tid tty
      = some ⟨db.nextVoteId, aid, tid, tty, value⟩ := by
  unfold findVote at hfind ⊢
  unfold insertVoteDB
  rw [List.find?_append, hfind]
  simp

/-- After the DELETE of the found row, no stored vote for the triple is left:
by the uniqueness invariant the found row was the only one. -/
theorem findVote_delete (db : DB) (aid tid tty : String) (ev : VoteRow)
    (hD : votesDistinct db)
    (hfind : findVote db aid tid tty = some ev) :
    findVote (deleteVoteDB db ev) aid tid tty = none := by
  unfold findVote at hfind ⊢
  unfold deleteVoteDB
  rw [List.find?_eq_none]
  intro v hv hpred
  have hv2 : v ∈ db.votes.filter (fun v => v.id != ev.id) := hv
  have hvmem : v ∈ db.votes := List.mem_of_mem_filter hv2
  have hvid := List.of_mem_filter hv2
  simp only [bne_iff_ne, ne_eq] at hvid
  have hevmem : ev ∈ db.votes := List.mem_of_find?_eq_some hfind
  have hevpred := List.find?_some hfind
  simp only [Bool.and_eq_true, beq_iff_eq] at hpred hevpred
  have hne : v ≠ ev := by
    intro h
    subst h
    exact hvid rfl
  have hsym : Symmetric (fun v w : VoteRow =>
      ¬(v.agent_id = w.agent_id ∧ v.target_id = w.target_id
          ∧ v.target_type = w.target_type)) := by
    intro x y hxy hsame
    exact hxy ⟨hsame.1.symm, hsame.2.1.symm, hsame.2.2.symm⟩
  have hR := hD.forall hsym hvmem hevmem hne
  exact hR ⟨hpred.1.1.trans hevpred.1.1.symm,
    hpred.1.2.trans hevpred.1.2.symm, hpred.2.trans hevpred.2.symm⟩

/-- After the UPDATE of the found row, the caller's stored vote is the found
row with the new value. -/
theorem findVote_update (db : DB) (aid tid tty : String) (ev : VoteRow)
    (value : Int) (hfind : findVote db aid tid tty = some ev) :
    findVote (updateVoteDB db ev value) aid tid tty
      = some { ev with value := value } := by
  unfold findVote at hfind ⊢
  unfold updateVoteDB
  rw [find?_map_invariant _ _
    (by intro a; by_cases h : (a.id == ev.id) = true <;> simp [h]) db.votes]
  rw [hfind]
  simp

/-- The INSERT preserves the one-vote-per-triple invariant: the inserted
triple was not stored. -/
theorem votesDistinct_insert (db : DB) (aid tid tty : String) (value : Int)
    (hD : votesDistinct db)
    (hfind : findVote db aid tid tty = none) :
    votesDistinct (insertVoteDB db aid tid tty value) := by
  unfold votesDistinct at hD ⊢
  unfold insertVoteDB
  rw [List.pairwise_append]
  refine ⟨hD, by simp, ?_⟩
  intro a ha b hb
  simp only [List.mem_singleton] at hb
  subst hb
  intro hsame
  unfold findVote at hfind
  rw [List.find?_eq_none] at hfind
  exact hfind a ha (by simp [hsame.1, hsame.2.1, hsame.2.2])

/-- The DELETE preserves the one-vote-per-triple invariant. -/
theorem votesDistinct_delete (db : DB) (ev : VoteRow)
    (hD : votesDistinct db) :
    votesDistinct (deleteVoteDB db ev) := by
  unfold votesDistinct at hD ⊢
  unfold deleteVoteDB
  exact List.Pairwise.sublist (List.filter_sublist _) hD

/-- The UPDATE changes only a value column, so it preserves the
one-vote-per-triple invariant. -/
theorem votesDistinct_update (db : DB) (ev : VoteRow) (value : Int)
    (hD : votesDistinct db) :
    votesDistinct (updateVoteDB db ev value) := by
  unfold votesDistinct at hD ⊢
  unfold updateVoteDB
  rw [List.pairwise_map]
  refine hD.imp ?_
  intro a b hR hsame
  apply hR
  have e1 : ∀ v : VoteRow,
      (if v.id == ev.id then { v with value := value } else v).agent_id
          = v.agent_id
        ∧ (if v.id == ev.id then { v with value := value } else v).target_id
          = v.target_id
        ∧ (if v.id == ev.id then { v with value := value } else v).target_type
          = v.target_type := by
    intro v
    by_cases h : (v.id == ev.id) = true <;> simp [h]
  refine ⟨?_, ?_, ?_⟩
  · rw [← (e1 a).1, ← (e1 b).1]; exact hsame.1
  · rw [← (e1 a).2.1, ← (e1 b).2.1]; exact hsame.2.1
  · rw [← (e1 a).2.2, ← (e1 b).2.2]; exact hsame.2.2

/-- Vote values stay in `{+1, −1}` through the row phase. -/
theorem votesValues_step (db : DB) (tid tty aid : String) (value : Int)
    (hV : ∀ v ∈ db.votes, v.value = 1 ∨ v.value = -1)
    (hval : value = 1 ∨ value = -1) :
    ∀ v ∈ (voteRowStep db tid tty aid value).2.2.2.votes,
      v.value = 1 ∨ v.value = -1 := by
  rcases hfind : findVote db aid tid tty with _ | ev
  · rw [voteRowStep_none db tid tty aid value hfind]
    intro v hv
    have hv2 : v ∈ db.votes ++ [⟨db.nextVoteId, aid, tid, tty, value⟩] := hv
    rcases List.mem_append.mp hv2 with h1 | h1
    · exact hV v h1
    · simp only [List.mem_singleton] at h1
      subst h1
      exact hval
  · by_cases hev : ev.value = value
    · rw [voteRowStep_removed db tid tty aid value ev hfind hev]
      intro v hv
      have hv2 : v ∈ db.votes.filter (fun v => v.id != ev.id) := hv
      exact hV v (List.mem_of_mem_filter hv2)
    · rw [voteRowStep_changed db tid tty aid value ev hfind hev]
      intro v hv
      have hv2 : v ∈ db.votes.map (fun v =>
          if v.id == ev.id then { v with value := value } else v) := hv
      rcases List.mem_map.mp hv2 with ⟨w, hw, hweq⟩
      subst hweq
      by_cases h : (w.id == ev.id) = true
      · simp only [if_pos h]
        exact Or.imp (fun hh => hh) (fun hh => hh) hval
      · simp only [if_neg h]
        exact hV w hw

/-- From a successful author lookup of a post target, the post row exists. -/
theorem getTarget_post_isSome (db : DB) (tid author : String)
    (h : getTarget db tid "post" = Except.ok author) :
    (db.posts.find? (fun p => p.id == tid)).isSome := by
  unfold getTarget at h
  rw [if_pos rfl] at h
  rcases hf : db.posts.find? (fun p => p.id == tid) with _ | p
  · rw [hf] at h
    exact absurd h (by simp)
  · rw [hf]
    rfl

/-- From a successful author lookup of a comment target, the comment row
exists. -/
theorem getTarget_comment_isSome (db : DB) (tid author : String)
    (h : getTarget db tid "comment" = Except.ok author) :
    (db.comments.find? (fun c => c.id == tid)).isSome := by
  unfold getTarget at h
  rw [if_neg (by decide), if_pos rfl] at h
  rcases hf : db.comments.find? (fun c => c.id == tid) with _ | c
  · rw [hf] at h
    exact absurd h (by simp)
  · rw [hf]
    rfl

/-- The karma update keeps every agent row present. -/
theorem agentsFind_isSome_update (db : DB) (aid : String) (d : Int)
    (x : String) (h : (db.agents.find? (fun a => a.id == x)).isSome) :
    ((agentUpdateKarma db aid d).agents.find? (fun a => a.id == x)).isSome := by
  unfold agentUpdateKarma
  rw [find?_map_invariant _ _
    (by intro a; by_cases hh : (a.id == aid) = true <;> simp [hh]) db.agents]
  simpa using h

/-- Reduction of a successful `vote` call: the final committed database is
the row-phase database with the score applied to the target and the karma
applied to the author. -/
theorem vote_final_db (db : DB) (tid tty aid author : String) (value : Int)
    (hT : getTarget db tid tty = Except.ok author)
    (hS : (author == aid) = false) :
    (vote db tid tty aid value).2
      = agentUpdateKarma
          (if tty = "post" then
            postUpdateScore (voteRowStep db tid tty aid value).2.2.2 tid
              (voteRowStep db tid tty aid value).2.1
          else
            commentUpdateScore (voteRowStep db tid tty aid value).2.2.2 tid
              (voteRowStep db tid tty aid value).2.1 (value == 1))
          author (voteRowStep db tid tty aid value).2.2.1 := by
  unfold vote voteRun
  rw [hT]
  simp [hS]

/-- Reduction of a successful `vote` call: the reported action is the
row-phase action. -/
theorem vote_action (db : DB) (tid tty aid author : String) (value : Int)
    (hT : getTarget db tid tty = Except.ok author)
    (hS : (author == aid) = false) :
    (vote db tid tty aid value).1.map VoteOutcome.action
      = Except.ok (voteRowStep db tid tty aid value).1 := by
  unfold vote voteRun
  rw [hT]
  simp only [hS, Bool.false_eq_true, if_false, if_true]
  rfl

@[simp] theorem insertVoteDB_posts (db : DB) (a t ty : String) (v : Int) :
    (insertVoteDB db a t ty v).posts = db.posts := rfl

@[simp] theorem insertVoteDB_comments (db : DB) (a t ty : String) (v : Int) :
    (insertVoteDB db a t ty v).comments = db.comments := rfl

@[simp] theorem insertVoteDB_agents (db : DB) (a t ty : String) (v : Int) :
    (insertVoteDB db a t ty v).agents = db.agents := rfl

@[simp] theorem deleteVoteDB_posts (db : DB) (ev : VoteRow) :
    (deleteVoteDB db ev).posts = db.posts := rfl

@[simp] theorem deleteVoteDB_comments (db : DB) (ev : VoteRow) :
    (deleteVoteDB db ev).comments = db.comments := rfl

@[simp] theorem deleteVoteDB_agents (db : DB) (ev : VoteRow) :
    (deleteVoteDB db ev).agents = db.agents := rfl

@[simp] theorem updateVoteDB_posts (db : DB) (ev : VoteRow) (v : Int) :
    (updateVoteDB db ev v).posts = db.posts := rfl

@[simp] theorem updateVoteDB_comments (db : DB) (ev : VoteRow) (v : Int) :
    (updateVoteDB db ev v).comments = db.comments := rfl

@[simp] theorem updateVoteDB_agents (db : DB) (ev : VoteRow) (v : Int) :
    (updateVoteDB db ev v).agents = db.agents := rfl

@[simp] theorem postScore_agentUpdateKarma (db : DB) (a : String) (dd : Int)
    (pid : String) :
    postScore (agentUpdateKarma db a dd) pid = postScore db pid := rfl

@[simp] theorem commentScore_agentUpdateKarma (db : DB) (a : String)
    (dd : Int) (cid : String) :
    commentScore (agentUpdateKarma db a dd) cid = commentScore db cid := rfl

/-- `getTarget` reads only `posts` and `comments`. -/
theorem getTarget_eq_of (db1 db2 : DB) (hp : db1.posts = db2.posts)
    (hc : db1.comments = db2.comments) (tid tty : String) :
    getTarget db1 tid tty = getTarget db2 tid tty := by
  unfold getTarget
  rw [hp, hc]

/-- The six-transition table of `VoteService.vote`, together with the
preservation facts needed to chain calls: reported action, stored vote,
score delta, karma delta, the uniqueness invariant, vote-value sanity,
target lookup and author-row existence. -/
theorem vote_table (db : DB) (targetId targetType agentId author : String)
    (value : Int)
    (hD : votesDistinct db)
    (hV : ∀ v ∈ db.votes, v.value = 1 ∨ v.value = -1)
    (hval : value = 1 ∨ value = -1)
    (hT : getTarget db targetId targetType = Except.ok author)
    (hS : (author == agentId) = false)
    (hA : (db.agents.find? (fun a => a.id == author)).isSome) :
    (vote db targetId targetType agentId value).1.map VoteOutcome.action
        = Except.ok
          (tableAction (voteValueOf db agentId targetId targetType) value) ∧
    voteValueOf (vote db targetId targetType agentId value).2 agentId
        targetId targetType
      = tableStored (voteValueOf db agentId targetId targetType) value ∧
    targetScore (vote db targetId targetType agentId value).2 targetId
        targetType
      = targetScore db targetId targetType
        + tableDelta (voteValueOf db agentId targetId targetType) value ∧
    karmaOf (vote db targetId targetType agentId value).2 author
      = karmaOf db author
        + tableDelta (voteValueOf db agentId targetId targetType) value ∧
    votesDistinct (vote db targetId targetType agentId value).2 ∧
    (∀ v ∈ (vote db targetId targetType agentId value).2.votes,
        v.value = 1 ∨ v.value = -1) ∧
    getTarget (vote db targetId targetType agentId value).2 targetId
        targetType
      = Except.ok author ∧
    ((vote db targetId targetType agentId value).2.agents.find?
        (fun a => a.id == author)).isSome := by
  have htype : targetType = "post" ∨ targetType = "comment" := by
    by_cases h1 : targetType = "post"
    · exact Or.inl h1
    · by_cases h2 : targetType = "comment"
      · exact Or.inr h2
      · unfold getTarget at hT
        rw [if_neg h1, if_neg h2] at hT
        exact absurd hT (by simp)
  have hfdb := vote_final_db db targetId targetType agentId author value hT hS
  have hact := vote_action db targetId targetType agentId author value hT hS
  obtain ⟨act, d, dbR, hstep, hP1, hP2, hP3, hP4, hP5, hposts, hcomments,
      hagents⟩ :
      ∃ act d dbR,
        voteRowStep db targetId targetType agentId value = (act, d, d, dbR) ∧
        act = tableAction (voteValueOf db agentId targetId targetType)
          value ∧
        (findVote dbR agentId targetId targetType).map (fun v => v.value)
          = tableStored (voteValueOf db agentId targetId targetType) value ∧
        d = tableDelta (voteValueOf db agentId targetId targetType) value ∧
        votesDistinct dbR ∧
        (∀ v ∈ dbR.votes, v.value = 1 ∨ v.value = -1) ∧
        dbR.posts = db.posts ∧ dbR.comments = db.comments ∧
        dbR.agents = db.agents := by
    rcases hfind : findVote db agentId targetId targetType with _ | ev
    · have hpre : voteValueOf db agentId targetId targetType = none := by
        unfold voteValueOf
        rw [hfind]
        rfl
      refine ⟨_, _, _,
        voteRowStep_none db targetId targetType agentId value hfind,
        ?_, ?_, ?_,
        votesDistinct_insert db agentId targetId targetType value hD hfind,
        ?_, rfl, rfl, rfl⟩
      · rw [hpre]
        unfold tableAction
        by_cases h : value = 1 <;> simp [h]
      · rw [findVote_insert db agentId targetId targetType value hfind, hpre]
        rfl
      · rw [hpre]
        rfl
      · intro v hv
        have hv2 : v ∈ db.votes
            ++ [⟨db.nextVoteId, agentId, targetId, targetType, value⟩] := hv
        rcases List.mem_append.mp hv2 with h1 | h1
        · exact hV v h1
        · simp only [List.mem_singleton] at h1
          subst h1
          exact hval
    · by_cases hev : ev.value = value
      · have hpre : voteValueOf db agentId targetId targetType
            = some value := by
          unfold voteValueOf
          rw [hfind]
          simp [hev]
        refine ⟨_, _, _,
          voteRowStep_removed db targetId targetType agentId value ev hfind
            hev,
          ?_, ?_, ?_, votesDistinct_delete db ev hD, ?_, rfl, rfl, rfl⟩
        · rw [hpre]
          simp [tableAction]
        · rw [findVote_delete db agentId targetId targetType ev hD hfind,
            hpre]
          simp [tableStored]
        · rw [hpre]
          simp [tableDelta]
        · intro v hv
          have hv2 : v ∈ db.votes.filter (fun v => v.id != ev.id) := hv
          exact hV v (List.mem_of_mem_filter hv2)
      · have hpre : voteValueOf db agentId targetId targetType
            = some ev.value := by
          unfold voteValueOf
          rw [hfind]
          rfl
        refine ⟨_, _, _,
          voteRowStep_changed db targetId targetType agentId value ev hfind
            hev,
          ?_, ?_, ?_, votesDistinct_update db ev value hD, ?_, rfl, rfl, rfl⟩
        · rw [hpre]
          simp [tableAction, hev]
        · rw [findVote_update db agentId targetId targetType ev value hfind,
            hpre]
          simp [tableStored, hev]
        · rw [hpre]
          simp only [tableDelta]
          rw [if_neg hev]
          ring
        · intro v hv
          have hv2 : v ∈ db.votes.map (fun v =>
              if v.id == ev.id then { v with value := value } else v) := hv
          rcases List.mem_map.mp hv2 with ⟨w, hw, hweq⟩
          subst hweq
          by_cases h : (w.id == ev.id) = true
          · simp only [if_pos h]
            exact hval
          · simp only [if_neg h]
            exact hV w hw
  have hfdb2 : (vote db targetId targetType agentId value).2
      = agentUpdateKarma
          (if targetType = "post" then postUpdateScore dbR targetId d
           else commentUpdateScore dbR targetId d (value == 1))
          author d := by
    rw [hfdb, hstep]
  have hvotesEq : (vote db targetId targetType agentId value).2.votes
      = dbR.votes := by
    rw [hfdb2]
    rcases htype with hty | hty <;> simp [hty]
  have hAR : ((if targetType = "post" then postUpdateScore dbR targetId d
      else commentUpdateScore dbR targetId d (value == 1)).agents.find?
      (fun a => a.id == author)).isSome := by
    rcases htype with hty | hty
    · rw [hty, if_pos rfl]
      rw [postUpdateScore_agents, hagents]
      exact hA
    · rw [hty, if_neg (by decide)]
      rw [commentUpdateScore_agents, hagents]
      exact hA
  refine ⟨?_, ?_, ?_, ?_, ?_, ?_, ?_, ?_⟩
  · have hresAct : (vote db targetId targetType agentId value).1.map
        VoteOutcome.action = Except.ok act := by
      rw [hact, hstep]
    exact hresAct.trans (congrArg Except.ok hP1)
  · have h2 : voteValueOf (vote db targetId targetType agentId value).2
        agentId targetId targetType
        = (findVote dbR agentId targetId targetType).map (fun v => v.value) := by
      unfold voteValueOf findVote
      rw [hvotesEq]
    exact h2.trans hP2
  · rw [← hP3, hfdb2]
    rcases htype with hty | hty
    · have hT2 := hT
      rw [hty] at hT2
      have hsome2 : (dbR.posts.find? (fun p => p.id == targetId)).isSome := by
        rw [hposts]
        exact getTarget_post_isSome db targetId author hT2
      have e2 : postScore dbR targetId = postScore db targetId := by
        unfold postScore
        rw [hposts]
      have key : postScore (postUpdateScore dbR targetId d) targetId
          = postScore db targetId + d := by
        rw [postScore_update_self dbR targetId d hsome2, e2]
      rw [hty]
      simp [targetScore, key]
    · have hT2 := hT
      rw [hty] at hT2
      have hsome2 : (dbR.comments.find?
          (fun c => c.id == targetId)).isSome := by
        rw [hcomments]
        exact getTarget_comment_isSome db targetId author hT2
      have e2 : commentScore dbR targetId = commentScore db targetId := by
        unfold commentScore
        rw [hcomments]
      have key : commentScore (commentUpdateScore dbR targetId d (value == 1))
          targetId = commentScore db targetId + d := by
        rw [commentScore_update_self dbR targetId d (value == 1) hsome2, e2]
      rw [hty]
      simp [targetScore, key]
  · rw [← hP3, hfdb2]
    rw [karmaOf_update_self _ author d hAR]
    have e3 : karmaOf (if targetType = "post" then
        postUpdateScore dbR targetId d
        else commentUpdateScore dbR targetId d (value == 1)) author
        = karmaOf db author := by
      unfold karmaOf
      rcases htype with hty | hty
      · rw [hty, if_pos rfl, postUpdateScore_agents, hagents]
      · rw [hty, if_neg (by decide), commentUpdateScore_agents, hagents]
    rw [e3]
  · unfold votesDistinct at hP4 ⊢
    rw [hvotesEq]
    exact hP4
  · intro v hv
    rw [hvotesEq] at hv
    exact hP5 v hv
  · rw [hfdb2, getTarget_agentUpdateKarma]
    rcases htype with hty | hty
    · rw [hty, if_pos rfl, getTarget_postUpdateScore,
        getTarget_eq_of dbR db hposts hcomments]
      rw [hty] at hT
      exact hT
    · rw [hty, if_neg (by decide), getTarget_commentUpdateScore,
        getTarget_eq_of dbR db hposts hcomments]
      rw [hty] at hT
      exact hT
  · rw [hfdb2]
    exact agentsFind_isSome_update _ author d author hAR

/-- C1: for every call whose target exists and whose caller differs from the
target's author — over a well-formed store (at most one vote per triple,
stored values in {+1, −1}, author row present) and direction ±1 — the
reported action, the stored vote, the score delta and the karma delta follow
the six-transition table; the one-vote-per-triple invariant is preserved, and
voting the same direction twice from a vote-free start ends with no stored
vote and restores the target's score and the author's karma. -/
theorem claim_C1_vote_state_machine (db : DB)
    (targetId targetType agentId author : String) (value : Int)
    (hD : votesDistinct db)
    (hV : ∀ v ∈ db.votes, v.value = 1 ∨ v.value = -1)
    (hval : value = 1 ∨ value = -1)
    (hT : getTarget db targetId targetType = Except.ok author)
    (hS : (author == agentId) = false)
    (hA : (db.agents.find? (fun a => a.id == author)).isSome) :
    (vote db targetId targetType agentId value).1.map VoteOutcome.action
        = Except.ok
          (tableAction (voteValueOf db agentId targetId targetType) value) ∧
    voteValueOf (vote db targetId targetType agentId value).2 agentId
        targetId targetType
      = tableStored (voteValueOf db agentId targetId targetType) value ∧
    targetScore (vote db targetId targetType agentId value).2 targetId
        targetType
      = targetScore db targetId targetType
        + tableDelta (voteValueOf db agentId targetId targetType) value ∧
    karmaOf (vote db targetId targetType agentId value).2 author
      = karmaOf db author
        + tableDelta (voteValueOf db agentId targetId targetType) value ∧
    votesDistinct (vote db targetId targetType agentId value).2 ∧
    (voteValueOf db agentId targetId targetType = none →
      voteValueOf (vote (vote db targetId targetType agentId value).2
            targetId targetType agentId value).2 agentId targetId targetType
          = none ∧
      targetScore (vote (vote db targetId targetType agentId value).2
            targetId targetType agentId value).2 targetId targetType
          = targetScore db targetId targetType ∧
      karmaOf (vote (vote db targetId targetType agentId value).2
            targetId targetType agentId value).2 author
          = karmaOf db author) := by
  obtain ⟨h1, h2, h3, h4, h5, h6, h7, h8⟩ :=
    vote_table db targetId targetType agentId author value hD hV hval hT hS hA
  refine ⟨h1, h2, h3, h4, h5, ?_⟩
  intro hnone
  have hpre1 : voteValueOf (vote db targetId targetType agentId value).2
      agentId targetId targetType = some value := by
    rw [h2, hnone]
    rfl
  obtain ⟨g1, g2, g3, g4, g5, g6, g7, g8⟩ :=
    vote_table (vote db targetId targetType agentId value).2 targetId
      targetType agentId author value h5 h6 hval h7 hS h8
  rw [hpre1] at g2 g3 g4
  have e0 : tableDelta none value = value := rfl
  have e1 : tableDelta (some value) value = -value := by simp [tableDelta]
  refine ⟨?_, ?_, ?_⟩
  · rw [g2]
    simp [tableStored]
  · rw [g3, h3, hnone, e0, e1]
    ring
  · rw [g4, h4, hnone, e0, e1]
    ring

def exDB1 : DB :=
  { posts := [⟨"p1", "A", 0⟩], comments := [],
    agents := [⟨"A", "alice", 0⟩, ⟨"B", "bob", 0⟩], votes := [],
    nextVoteId := 0 }

/-- Witness for C1: agent B upvotes A's post from an empty ledger (action
"upvoted", stored +1, score and karma +1), and upvoting again removes the
vote and restores score and karma. -/
theorem claim_C1_vote_state_machine_witness :
    (vote exDB1 "p1" "post" "B" 1).1.map VoteOutcome.action
        = Except.ok "upvoted" ∧
    voteValueOf (vote exDB1 "p1" "post" "B" 1).2 "B" "p1" "post" = some 1 ∧
    targetScore (vote exDB1 "p1" "post" "B" 1).2 "p1" "post" = 1 ∧
    karmaOf (vote exDB1 "p1" "post" "B" 1).2 "A" = 1 ∧
    votesDistinct (vote exDB1 "p1" "post" "B" 1).2 ∧
    voteValueOf (vote (vote exDB1 "p1" "post" "B" 1).2 "p1" "post" "B" 1).2
        "B" "p1" "post" = none ∧
    targetScore (vote (vote exDB1 "p1" "post" "B" 1).2 "p1" "post" "B" 1).2
        "p1" "post" = 0 ∧
    karmaOf (vote (vote exDB1 "p1" "post" "B" 1).2 "p1" "post" "B" 1).2 "A"
        = 0 := by
  obtain ⟨h1, h2, h3, h4, h5, h6⟩ :=
    claim_C1_vote_state_machine exDB1 "p1" "post" "B" "A" 1
      (by unfold votesDistinct; exact List.Pairwise.nil)
      (by intro v hv; cases hv)
      (Or.inl rfl)
      rfl
      (by decide)
      (by decide)
  obtain ⟨r1, r2, r3⟩ := h6 (by decide)
  exact ⟨h1.trans (by rfl), h2.trans (by decide), h3.trans (by decide),
    h4.trans (by decide), h5, r1, r2.trans (by decide), r3.trans (by decide)⟩

/-- C10: a self-vote — the target's author is the voting agent — fails with
the invalid-operation error and leaves the database (vote rows, scores,
karma) completely unchanged. -/
theorem claim_C10_self_vote_rejected (db : DB)
    (targetId targetType agentId : String) (value : Int)
    (hT : getTarget db targetId targetType = Except.ok agentId) :
    (vote db targetId targetType agentId value).1
        = Except.error (ApiErr.badRequest "Cannot vote on your own content") ∧
    (vote db targetId targetType agentId value).2 = db := by
  unfold vote voteRun
  rw [hT]
  simp

/-- Witness for C10: agent A votes on their own post. -/
theorem claim_C10_self_vote_rejected_witness :
    (vote exDB1 "p1" "post" "A" 1).1
        = Except.error (ApiErr.badRequest "Cannot vote on your own content") ∧
    (vote exDB1 "p1" "post" "A" 1).2 = exDB1 :=
  claim_C10_self_vote_rejected exDB1 "p1" "post" "A" 1 rfl

/-- C2: the source performs the vote-row write and the score/karma
propagation as separately committed awaited statements — `transaction` is
imported but never used in `vote` — so when the score propagation step of a
fresh upvote fails, the operation reports an error while the inserted vote
row stays committed with the target score and author karma unchanged:
exactly the partial state the claim forbids. -/
theorem claim_C2_no_transactional_rollback :
    (voteRun exDB1 "p1" "post" "B" 1 false true).1
        = Except.error (ApiErr.internalError "score update failed") ∧
    findVote (voteRun exDB1 "p1" "post" "B" 1 false true).2 "B" "p1" "post"
        = some ⟨0, "B", "p1", "post", 1⟩ ∧
    postScore (voteRun exDB1 "p1" "post" "B" 1 false true).2 "p1" = 0 ∧
    karmaOf (voteRun exDB1 "p1" "post" "B" 1 false true).2 "A" = 0 := by
  refine ⟨rfl, by decide, by decide, by decide⟩

def exDB5 : DB :=
  { posts := [], comments := [⟨"c1", "A", 0, 0, 0⟩],
    agents := [⟨"A", "alice", 0⟩, ⟨"B", "bob", 0⟩], votes := [],
    nextVoteId := 0 }

/-- C5: a fresh downvote on a comment stores exactly one −1 vote but
DECREMENTS the stored downvote tally: `CommentService.updateScore` derives
`voteChange = delta > 0 ? 1 : -1` from the score delta, which is −1 for a
fresh downvote, so `downvotes` becomes −1 while the number of stored −1
votes is 1 — the tallies are not kept consistent with the stored votes. -/
theorem claim_C5_comment_tally_bug :
    (vote exDB5 "c1" "comment" "B" (-1)).1.map VoteOutcome.action
        = Except.ok "downvoted" ∧
    countVotes (vote exDB5 "c1" "comment" "B" (-1)).2 "c1" "comment" (-1)
        = 1 ∧
    commentDownvotes (vote exDB5 "c1" "comment" "B" (-1)).2 "c1" = -1 ∧
    commentUpvotes (vote exDB5 "c1" "comment" "B" (-1)).2 "c1" = 0 ∧
    commentDownvotes (vote exDB5 "c1" "comment" "B" (-1)).2 "c1"
        ≠ (countVotes (vote exDB5 "c1" "comment" "B" (-1)).2 "c1" "comment"
            (-1) : Int) := by
  refine ⟨rfl, by decide, by decide, by decide, by decide⟩

/-- Embedding of `VoteService.getVotes` (part_001:217-244).  The module's
only database imports are `queryOne` and `transaction` (part_001:6), so the
two `queryAll(...)` calls in this function reference an unbound name: as soon
as the post id list or the comment id list is nonempty, evaluation throws
`ReferenceError: queryAll is not defined` before any query runs.  The store
is never consulted; only the empty cases return a map. -/
def getVotes (_db : DB) (_agentId : String)
    (targets : List (String × String)) :
    Except String (List (String × Int)) :=
  if targets.length = 0 then Except.ok []
  else
    let postIds :=
      (targets.filter (fun t => t.2 == "post")).map (fun t => t.1)
    let commentIds :=
      (targets.filter (fun t => t.2 == "comment")).map (fun t => t.1)
    if postIds.length > 0 then
      Except.error "ReferenceError: queryAll is not defined"
    else if commentIds.length > 0 then
      Except.error "ReferenceError: queryAll is not defined"
    else Except.ok []

def exDB6 : DB :=
  { posts := [⟨"p1", "A", 0⟩], comments := [],
    agents := [⟨"A", "alice", 0⟩, ⟨"B", "bob", 0⟩],
    votes := [⟨0, "B", "p1", "post", 1⟩], nextVoteId := 1 }

/-- C6: with a stored +1 vote by agent B on post p1, the batch read for the
one-element target list crashes with the unbound-name error instead of
returning the map (p1 → 1); only the empty target list returns the empty
map. -/
theorem claim_C6_getVotes_reference_error :
    findVote exDB6 "B" "p1" "post" = some ⟨0, "B", "p1", "post", 1⟩ ∧
    getVotes exDB6 "B" [("p1", "post")]
        = Except.error "ReferenceError: queryAll is not defined" ∧
    getVotes exDB6 "B" [] = Except.ok [] := by
  refine ⟨by decide, rfl, rfl⟩
